import Mathlib

/-!
# The NDK 3.9 `proto/layers.h` and `proto/nonvolatile.h` headers

The two headers are transcribed line by line into a small abstract syntax of
preprocessor lines, and given meaning by an interpreter for the conditional
inclusion rules of the C preprocessor (`#ifndef` / `#define` / `#include` /
`#endif`).  The headers that the two files pull in (`pragmas/*_pragmas.h`,
`exec/libraries.h`) are not part of the development; their effect on the set
of defined macros is a parameter of the interpreter.

A text line is subject to macro replacement.  The macro set records the names
of the macros, not their replacement lists, so the interpreter reports a text
line together with those of its identifiers that are macro names when the
line is reached: the line leaves the preprocessor as written exactly when
there are none.
-/

namespace AmigaNDK

/-! ## C declarations -/

/-- Storage-class specifiers of C. -/
inductive StorageClass
  | typedefSpec
  | externSpec
  | staticSpec
  | autoSpec
  | registerSpec
  deriving DecidableEq

/-- The fragment of C types that the headers mention. -/
inductive CType
  | voidT
  | intT
  | structT (tag : String)
  | pointer (target : CType)
  deriving DecidableEq

/-- A file-scope object declaration `storage type name [= initializer];`. -/
structure Declaration where
  storage : Option StorageClass
  type : CType
  name : String
  initializer : Option String
  deriving DecidableEq

/-- Whether a file-scope declaration reserves storage for its object: a
declaration with an initializer is a definition, one without initializer is a
tentative definition unless it is marked `extern` (or is a `typedef`). -/
def definesStorage (d : Declaration) : Bool :=
  match d.storage with
  | some StorageClass.typedefSpec => false
  | some StorageClass.externSpec => d.initializer.isSome
  | _ => true

/-- The keyword that spells a storage-class specifier. -/
def StorageClass.keyword : StorageClass → String
  | StorageClass.typedefSpec => "typedef"
  | StorageClass.externSpec => "extern"
  | StorageClass.staticSpec => "static"
  | StorageClass.autoSpec => "auto"
  | StorageClass.registerSpec => "register"

/-- The identifier tokens that spell a type, in source order (keywords are
identifiers to the preprocessor; `*` is a punctuator). -/
def CType.identifiers : CType → List String
  | CType.voidT => ["void"]
  | CType.intT => ["int"]
  | CType.structT tag => ["struct", tag]
  | CType.pointer target => target.identifiers

/-- The identifier tokens of a declaration line, in source order: the
storage-class keyword, the tokens of the type, the declared name and, when
there is one, the initializer (a single token). -/
def Declaration.identifiers (d : Declaration) : List String :=
  (d.storage.map StorageClass.keyword).toList ++ d.type.identifiers ++ [d.name]
    ++ d.initializer.toList

/-! ## Preprocessor lines -/

/-- One source line of a header, after comment removal. -/
inductive Line
  | hashIfndef (m : String)
  | hashDefine (m : String)
  | hashInclude (path : String)
  | hashEndif
  | declaration (d : Declaration)
  | comment
  | blank
  deriving DecidableEq

/-- Source file `proto/layers.h`, one entry per line (lines 1 to 27). -/
def proto_layers_h : List Line :=
  [ Line.hashIfndef "PROTO_LAYERS_H",
    Line.hashDefine "PROTO_LAYERS_H",
    Line.blank,
    Line.comment, Line.comment, Line.comment, Line.comment, Line.comment,
    Line.comment, Line.comment, Line.comment, Line.comment,
    Line.blank,
    Line.hashIfndef "PRAGMAS_LAYERS_PRAGMAS_H",
    Line.hashInclude "pragmas/layers_pragmas.h",
    Line.hashEndif,
    Line.blank,
    Line.hashIfndef "EXEC_LIBRARIES_H",
    Line.hashInclude "exec/libraries.h",
    Line.hashEndif,
    Line.blank,
    Line.hashIfndef "__NOLIBBASE__",
    Line.declaration
      { storage := some StorageClass.externSpec,
        type := CType.pointer (CType.structT "Library"),
        name := "LayersBase",
        initializer := none },
    Line.hashEndif,
    Line.blank,
    Line.hashEndif,
    Line.blank ]

/-- Source file `proto/nonvolatile.h`, one entry per line (lines 1 to 26; the
file does not end in a newline). -/
def proto_nonvolatile_h : List Line :=
  [ Line.hashIfndef "PROTO_NONVOLATILE_H",
    Line.hashDefine "PROTO_NONVOLATILE_H",
    Line.blank,
    Line.comment, Line.comment, Line.comment, Line.comment, Line.comment,
    Line.comment, Line.comment, Line.comment, Line.comment,
    Line.blank,
    Line.hashIfndef "PRAGMAS_NONVOLATILE_PRAGMAS_H",
    Line.hashInclude "pragmas/nonvolatile_pragmas.h",
    Line.hashEndif,
    Line.blank,
    Line.hashIfndef "EXEC_LIBRARIES_H",
    Line.hashInclude "exec/libraries.h",
    Line.hashEndif,
    Line.blank,
    Line.hashIfndef "__NOLIBBASE__",
    Line.declaration
      { storage := some StorageClass.externSpec,
        type := CType.pointer (CType.structT "Library"),
        name := "NVBase",
        initializer := none },
    Line.hashEndif,
    Line.blank,
    Line.hashEndif ]

/-! ## Preprocessing -/

/-- The set of macros that are currently defined. -/
abbrev MacroSet := Finset String

/-- The identifiers of a declaration line that are names of macros in `M`:
the tokens that macro replacement rewrites. -/
def Declaration.replacedBy (d : Declaration) (M : MacroSet) : List String :=
  d.identifiers.filter fun t => decide (t ∈ M)

/-- A text line as it leaves the preprocessor: the declaration as written in
the source, and the identifiers of the line that were macro names when the
line was reached.  The text is the declaration as written exactly when
`replaced` is empty; otherwise it depends on replacement lists, which the
macro set does not record. -/
structure Emitted where
  written : Declaration
  replaced : List String
  deriving DecidableEq

/-- A declaration that passes through the preprocessor as written. -/
def Emitted.verbatim (d : Declaration) : Emitted :=
  { written := d, replaced := [] }

/-- Effect of a nested header on the macro set: `env path M` is the macro set
after the header named `path` has been processed starting from `M`. -/
abbrev IncludeEffect := String → MacroSet → MacroSet

/-- What the preprocessor does while it reads a file, in order. -/
inductive Event
  | tested (m : String)
  | defined (m : String)
  | requested (path : String)
  | declared (e : Emitted)
  deriving DecidableEq

/-- State of the preprocessor inside a file: the defined macros, one flag per
open conditional group (innermost first; `true` when the group is being
processed, `false` when it is being skipped), and the events so far. -/
structure PPState where
  macros : MacroSet
  groups : List Bool
  trace : List Event
  deriving DecidableEq

/-- Lines are processed only when no enclosing group is being skipped. -/
def PPState.active (st : PPState) : Bool :=
  st.groups.all id

/-- Process one line.  `#endif` without an open group is an error.  A text
line in a group that is being processed is emitted after macro replacement
under the macros defined at that point. -/
def step (env : IncludeEffect) (st : PPState) : Line → Option PPState
  | Line.hashIfndef m =>
      if st.active then
        some { st with groups := decide (m ∉ st.macros) :: st.groups,
                       trace := st.trace ++ [Event.tested m] }
      else
        some { st with groups := false :: st.groups }
  | Line.hashEndif =>
      match st.groups with
      | [] => none
      | _ :: rest => some { st with groups := rest }
  | Line.hashDefine m =>
      if st.active then
        some { st with macros := insert m st.macros,
                       trace := st.trace ++ [Event.defined m] }
      else some st
  | Line.hashInclude path =>
      if st.active then
        some { st with macros := env path st.macros,
                       trace := st.trace ++ [Event.requested path] }
      else some st
  | Line.declaration d =>
      if st.active then
        some { st with
          trace := st.trace
            ++ [Event.declared { written := d, replaced := d.replacedBy st.macros }] }
      else some st
  | Line.comment => some st
  | Line.blank => some st

/-- Process the lines of a file in order. -/
def run (env : IncludeEffect) : List Line → PPState → Option PPState
  | [], st => some st
  | l :: ls, st =>
      match step env st l with
      | none => none
      | some st' => run env ls st'

/-- Result of preprocessing: the final macro set and the events. -/
structure Output where
  macros : MacroSet
  trace : List Event
  deriving DecidableEq

/-- The text lines that reach the compiler, in order. -/
def Output.declarations (out : Output) : List Emitted :=
  out.trace.filterMap fun e =>
    match e with
    | Event.declared d => some d
    | _ => none

/-- The files requested by `#include`, in order. -/
def Output.requests (out : Output) : List String :=
  out.trace.filterMap fun e =>
    match e with
    | Event.requested p => some p
    | _ => none

/-- Preprocess a whole file from the macro set `M`.  A conditional group left
open at the end of the file is an error. -/
def preprocess (env : IncludeEffect) (file : List Line) (M : MacroSet) : Option Output :=
  match run env file { macros := M, groups := [], trace := [] } with
  | none => none
  | some st => if st.groups = [] then some { macros := st.macros, trace := st.trace } else none

/-- Preprocess several files one after the other, as a translation unit that
includes them in this order does. -/
def includeSeq (env : IncludeEffect) : List (List Line) → MacroSet → Option Output
  | [], M => some { macros := M, trace := [] }
  | f :: fs, M =>
      match preprocess env f M with
      | none => none
      | some o =>
          match includeSeq env fs o.macros with
          | none => none
          | some o' => some { macros := o'.macros, trace := o.trace ++ o'.trace }

/-- The macro set in force when line `n` (counted from 1) of `file` is reached,
starting the file from the macro set `M`. -/
def macrosAtLine (env : IncludeEffect) (file : List Line) (n : Nat) (M : MacroSet) :
    Option MacroSet :=
  (run env (file.take (n - 1)) { macros := M, groups := [], trace := [] }).map PPState.macros

/-- Events that leave the preprocessor: include requests and declarations. -/
def Event.isOutput : Event → Bool
  | Event.requested _ => true
  | Event.declared _ => true
  | _ => false

/-! ## The two headers and the names they use -/

/-- The two headers of the development. -/
inductive Header
  | layers
  | nonvolatile
  deriving DecidableEq

/-- The text of a header. -/
def Header.lines : Header → List Line
  | Header.layers => proto_layers_h
  | Header.nonvolatile => proto_nonvolatile_h

/-- The include guard of a header (lines 1 and 2 of its file). -/
def Header.guard : Header → String
  | Header.layers => "PROTO_LAYERS_H"
  | Header.nonvolatile => "PROTO_NONVOLATILE_H"

/-- The guard of the pragma header (line 14). -/
def Header.pragmasGuard : Header → String
  | Header.layers => "PRAGMAS_LAYERS_PRAGMAS_H"
  | Header.nonvolatile => "PRAGMAS_NONVOLATILE_PRAGMAS_H"

/-- The path of the pragma header (line 15). -/
def Header.pragmasPath : Header → String
  | Header.layers => "pragmas/layers_pragmas.h"
  | Header.nonvolatile => "pragmas/nonvolatile_pragmas.h"

/-- The declaration on line 23. -/
def Header.libBaseDecl : Header → Declaration
  | Header.layers =>
      { storage := some StorageClass.externSpec,
        type := CType.pointer (CType.structT "Library"),
        name := "LayersBase",
        initializer := none }
  | Header.nonvolatile =>
      { storage := some StorageClass.externSpec,
        type := CType.pointer (CType.structT "Library"),
        name := "NVBase",
        initializer := none }

/-- None of the identifiers of the declaration line of `h` (`extern`,
`struct`, `Library` and the name of the library base) is the name of a macro
in `M`. -/
def Header.LineUntouched (h : Header) (M : MacroSet) : Prop :=
  ∀ t ∈ h.libBaseDecl.identifiers, t ∉ M

/-! ## Assumptions on the nested headers -/

/-- The nested headers never remove the macro `m` (no `#undef m`). -/
def KeepsDefined (env : IncludeEffect) (m : String) : Prop :=
  ∀ (path : String) (M : MacroSet), m ∈ M → m ∈ env path M

/-- The nested headers never define the macro `m`. -/
def KeepsUndefined (env : IncludeEffect) (m : String) : Prop :=
  ∀ (path : String) (M : MacroSet), m ∉ M → m ∉ env path M

/-- The nested headers never define an identifier of the declaration line of
`h` as a macro. -/
def LeavesLine (env : IncludeEffect) (h : Header) : Prop :=
  ∀ t ∈ h.libBaseDecl.identifiers, KeepsUndefined env t

/-- Nested headers that define nothing at all. -/
def inertHeaders : IncludeEffect := fun _ M => M

/-- Nested headers that behave as guarded headers do: each of the three
headers requested by the two files defines its own include guard. -/
def guardingHeaders : IncludeEffect := fun path M =>
  if path = "exec/libraries.h" then insert "EXEC_LIBRARIES_H" M
  else if path = "pragmas/layers_pragmas.h" then insert "PRAGMAS_LAYERS_PRAGMAS_H" M
  else if path = "pragmas/nonvolatile_pragmas.h" then insert "PRAGMAS_NONVOLATILE_PRAGMAS_H" M
  else M

/-! ## Closed form of one pass over a header -/

/-- Macro set when the test of the pragma guard (line 14) is reached. -/
def Header.atPragmasTest (h : Header) (M : MacroSet) : MacroSet :=
  insert h.guard M

/-- Macro set when the test of `EXEC_LIBRARIES_H` (line 18) is reached. -/
def Header.atExecTest (env : IncludeEffect) (h : Header) (M : MacroSet) : MacroSet :=
  if h.pragmasGuard ∈ h.atPragmasTest M then h.atPragmasTest M
  else env h.pragmasPath (h.atPragmasTest M)

/-- Macro set when the test of `__NOLIBBASE__` (line 22) is reached. -/
def Header.atLibBaseTest (env : IncludeEffect) (h : Header) (M : MacroSet) : MacroSet :=
  if "EXEC_LIBRARIES_H" ∈ h.atExecTest env M then h.atExecTest env M
  else env "exec/libraries.h" (h.atExecTest env M)

/-- Events of a pass over a header whose guard is not yet defined. -/
def Header.freshTrace (env : IncludeEffect) (h : Header) (M : MacroSet) : List Event :=
  [Event.tested h.guard, Event.defined h.guard, Event.tested h.pragmasGuard]
    ++ (if h.pragmasGuard ∈ h.atPragmasTest M then [] else [Event.requested h.pragmasPath])
    ++ [Event.tested "EXEC_LIBRARIES_H"]
    ++ (if "EXEC_LIBRARIES_H" ∈ h.atExecTest env M then []
        else [Event.requested "exec/libraries.h"])
    ++ [Event.tested "__NOLIBBASE__"]
    ++ (if "__NOLIBBASE__" ∈ h.atLibBaseTest env M then []
        else [Event.declared
          { written := h.libBaseDecl,
            replaced := h.libBaseDecl.replacedBy (h.atLibBaseTest env M) }])

/-- Every kind of line that occurs in a header. -/
def Header.allowedLines (h : Header) : List Line :=
  [ Line.hashIfndef h.guard, Line.hashDefine h.guard,
    Line.hashIfndef h.pragmasGuard, Line.hashInclude h.pragmasPath,
    Line.hashIfndef "EXEC_LIBRARIES_H", Line.hashInclude "exec/libraries.h",
    Line.hashIfndef "__NOLIBBASE__", Line.declaration h.libBaseDecl,
    Line.hashEndif, Line.comment, Line.blank ]

/-- Every event that a pass over a header can produce. -/
def Header.allowedEvents (h : Header) : List Event :=
  [ Event.tested h.guard, Event.defined h.guard,
    Event.tested h.pragmasGuard, Event.requested h.pragmasPath,
    Event.tested "EXEC_LIBRARIES_H", Event.requested "exec/libraries.h",
    Event.tested "__NOLIBBASE__", Event.declared (Emitted.verbatim h.libBaseDecl) ]

/-- Lines that are a macro test, a macro definition, the end of a conditional
group, the declaration of the library base, or no code at all: everything
except `#include` and foreign declarations. -/
def Header.guardOrExternLine (h : Header) : Line → Bool
  | Line.hashInclude _ => false
  | Line.declaration d => decide (d = h.libBaseDecl)
  | _ => true

/-- Events that are a macro test, a macro definition, or the declaration of
the library base as written: everything except include requests and other
text. -/
def Header.guardOrExternEvent (h : Header) : Event → Bool
  | Event.requested _ => false
  | Event.declared e => decide (e = Emitted.verbatim h.libBaseDecl)
  | _ => true

/-! ## Lemmas -/

theorem header_names_from_text (h : Header) :
    h.lines.take 2 = [Line.hashIfndef h.guard, Line.hashDefine h.guard] ∧
    (h.lines.drop 13).take 3
      = [Line.hashIfndef h.pragmasGuard, Line.hashInclude h.pragmasPath, Line.hashEndif] ∧
    (h.lines.drop 21).take 3
      = [ Line.hashIfndef "__NOLIBBASE__", Line.declaration h.libBaseDecl, Line.hashEndif ] := by
  cases h <;> exact ⟨rfl, rfl, rfl⟩

theorem preprocess_defined (env : IncludeEffect) (h : Header) (M : MacroSet)
    (hg : h.guard ∈ M) :
    preprocess env h.lines M = some { macros := M, trace := [Event.tested h.guard] } := by
  cases h <;>
    simp_all [Header.guard, Header.lines, proto_layers_h, proto_nonvolatile_h, preprocess, run,
      step, PPState.active]

theorem preprocess_fresh (env : IncludeEffect) (h : Header) (M : MacroSet)
    (hg : h.guard ∉ M) :
    preprocess env h.lines M
      = some { macros := h.atLibBaseTest env M, trace := h.freshTrace env M } := by
  cases h <;>
  · simp only [Header.guard] at hg
    simp only [Header.atLibBaseTest, Header.freshTrace, Header.atExecTest, Header.atPragmasTest,
      Header.guard, Header.pragmasGuard, Header.pragmasPath, Header.libBaseDecl,
      Header.lines, proto_layers_h, proto_nonvolatile_h, preprocess, run, step, PPState.active]
    split_ifs <;> simp_all

theorem macrosAtLine_exec (env : IncludeEffect) (h : Header) (M : MacroSet)
    (hg : h.guard ∉ M) :
    macrosAtLine env h.lines 18 M = some (h.atExecTest env M) := by
  cases h <;>
  · simp only [Header.guard] at hg
    simp only [Header.atExecTest, Header.atPragmasTest, macrosAtLine,
      Header.guard, Header.pragmasGuard, Header.pragmasPath,
      Header.lines, proto_layers_h, proto_nonvolatile_h, run, step, PPState.active]
    split_ifs <;> simp_all [run, step, PPState.active]

theorem pragmasGuard_mem_atPragmasTest (h : Header) (M : MacroSet) :
    h.pragmasGuard ∈ h.atPragmasTest M ↔ h.pragmasGuard ∈ M := by
  cases h <;> simp [Header.atPragmasTest, Header.pragmasGuard, Header.guard]

theorem mem_atLibBaseTest_of_keepsDefined {env : IncludeEffect} {m : String}
    (hk : KeepsDefined env m) (h : Header) (M : MacroSet) (hm : m ∈ h.atPragmasTest M) :
    m ∈ h.atLibBaseTest env M := by
  have h2 : m ∈ h.atExecTest env M := by
    unfold Header.atExecTest
    split_ifs
    · exact hm
    · exact hk _ _ hm
  unfold Header.atLibBaseTest
  split_ifs
  · exact h2
  · exact hk _ _ h2

theorem not_mem_atLibBaseTest_of_keepsUndefined {env : IncludeEffect} {m : String}
    (hk : KeepsUndefined env m) (h : Header) (M : MacroSet) (hm : m ∉ h.atPragmasTest M) :
    m ∉ h.atLibBaseTest env M := by
  have h2 : m ∉ h.atExecTest env M := by
    unfold Header.atExecTest
    split_ifs
    · exact hm
    · exact hk _ _ hm
  unfold Header.atLibBaseTest
  split_ifs
  · exact h2
  · exact hk _ _ h2

theorem guardingHeaders_keepsDefined (m : String) : KeepsDefined guardingHeaders m := by
  intro path M hm
  unfold guardingHeaders
  split_ifs <;> simp [hm]

theorem guardingHeaders_keepsUndefined (m : String) (h1 : m ≠ "EXEC_LIBRARIES_H")
    (h2 : m ≠ "PRAGMAS_LAYERS_PRAGMAS_H") (h3 : m ≠ "PRAGMAS_NONVOLATILE_PRAGMAS_H") :
    KeepsUndefined guardingHeaders m := by
  intro path M hm
  unfold guardingHeaders
  split_ifs <;> simp [hm, h1, h2, h3]

theorem declarations_fresh (env : IncludeEffect) (h : Header) (M N : MacroSet) :
    Output.declarations { macros := N, trace := h.freshTrace env M }
      = if "__NOLIBBASE__" ∈ h.atLibBaseTest env M then []
        else [{ written := h.libBaseDecl,
                replaced := h.libBaseDecl.replacedBy (h.atLibBaseTest env M) }] := by
  unfold Output.declarations Header.freshTrace
  split_ifs <;> simp

theorem requests_fresh (env : IncludeEffect) (h : Header) (M N : MacroSet) :
    Output.requests { macros := N, trace := h.freshTrace env M }
      = (if h.pragmasGuard ∈ M then [] else [h.pragmasPath])
        ++ (if "EXEC_LIBRARIES_H" ∈ h.atExecTest env M then [] else ["exec/libraries.h"]) := by
  have hp := pragmasGuard_mem_atPragmasTest h M
  unfold Output.requests Header.freshTrace
  split_ifs <;> simp_all

theorem pragmasPath_ne_exec (h : Header) : h.pragmasPath ≠ "exec/libraries.h" := by
  cases h <;> simp [Header.pragmasPath]

theorem includeSeq_pair (env : IncludeEffect) (f g : List Line) (M : MacroSet)
    (o₁ o₂ : Output) (h₁ : preprocess env f M = some o₁)
    (h₂ : preprocess env g o₁.macros = some o₂) :
    includeSeq env [f, g] M = some { macros := o₂.macros, trace := o₁.trace ++ o₂.trace } := by
  simp [includeSeq, h₁, h₂]

theorem replacedBy_eq_nil (d : Declaration) (M : MacroSet)
    (hM : ∀ t ∈ d.identifiers, t ∉ M) : d.replacedBy M = [] := by
  unfold Declaration.replacedBy
  rw [List.filter_eq_nil_iff]
  intro t ht
  simpa using hM t ht

theorem guard_not_identifier (h k : Header) : h.guard ∉ k.libBaseDecl.identifiers := by
  cases h <;> cases k <;> decide

theorem lineUntouched_atLibBaseTest {env : IncludeEffect} {k : Header} {M : MacroSet}
    (hM : k.LineUntouched M) (henv : LeavesLine env k) (h : Header) :
    k.LineUntouched (h.atLibBaseTest env M) := by
  intro t ht
  refine not_mem_atLibBaseTest_of_keepsUndefined (henv t ht) h M ?_
  have hne : t ≠ h.guard := fun heq => guard_not_identifier h k (heq ▸ ht)
  simp [Header.atPragmasTest, hne, hM t ht]

theorem declarations_fresh_verbatim (env : IncludeEffect) (h : Header) (M N : MacroSet)
    (hM : h.LineUntouched M) (henv : LeavesLine env h) :
    Output.declarations { macros := N, trace := h.freshTrace env M }
      = if "__NOLIBBASE__" ∈ h.atLibBaseTest env M then []
        else [Emitted.verbatim h.libBaseDecl] := by
  rw [declarations_fresh, replacedBy_eq_nil _ _ (lineUntouched_atLibBaseTest hM henv h)]
  rfl

theorem freshTrace_verbatim (env : IncludeEffect) (h : Header) (M : MacroSet)
    (hM : h.LineUntouched M) (henv : LeavesLine env h) (e : Event)
    (he : e ∈ h.freshTrace env M) : e ∈ h.allowedEvents := by
  revert e
  simp only [Header.freshTrace, Header.allowedEvents,
    replacedBy_eq_nil _ _ (lineUntouched_atLibBaseTest hM henv h), Emitted.verbatim]
  split_ifs <;> simp

theorem guardingHeaders_leavesLine (h : Header) : LeavesLine guardingHeaders h := by
  intro t ht
  apply guardingHeaders_keepsUndefined <;>
  · rintro rfl
    revert ht
    cases h <;> decide

theorem lineUntouched_empty (h : Header) : h.LineUntouched ∅ :=
  fun _ _ => Finset.not_mem_empty _

theorem declaration_line_replaced :
    (preprocess inertHeaders proto_layers_h
        {"LayersBase", "PRAGMAS_LAYERS_PRAGMAS_H", "EXEC_LIBRARIES_H"}).map Output.declarations
      = some [{ written := Header.libBaseDecl Header.layers, replaced := ["LayersBase"] }] := by
  decide

/-! ## The claims -/

/-- C1: the include guard prevents double inclusion.  For either header and
every initial macro set, provided the nested headers never undefine the
guard: processing the header succeeds and leaves its guard macro defined;
processing it with the guard already defined emits no declaration, requests
no include and leaves the macro set unchanged; and including it twice in a
row gives the same declarations, include requests and macro set as including
it once. -/
theorem guard_prevents_double_inclusion (env : IncludeEffect) (h : Header) (M : MacroSet)
    (hkeep : KeepsDefined env h.guard) :
    (∃ out, preprocess env h.lines M = some out ∧ h.guard ∈ out.macros) ∧
    (h.guard ∈ M → ∃ out, preprocess env h.lines M = some out ∧
        out.declarations = [] ∧ out.requests = [] ∧ out.macros = M) ∧
    (∃ once twice, preprocess env h.lines M = some once ∧
        includeSeq env [h.lines, h.lines] M = some twice ∧
        twice.declarations = once.declarations ∧ twice.requests = once.requests ∧
        twice.macros = once.macros) := by
  have hquiet : ∀ N : MacroSet, h.guard ∈ N →
      preprocess env h.lines N = some { macros := N, trace := [Event.tested h.guard] } :=
    fun N hN => preprocess_defined env h N hN
  by_cases hg : h.guard ∈ M
  · refine ⟨⟨_, hquiet M hg, hg⟩, fun _ => ⟨_, hquiet M hg, ?_, ?_, rfl⟩, ?_⟩
    · simp [Output.declarations]
    · simp [Output.requests]
    · refine ⟨_, _, hquiet M hg,
        includeSeq_pair env _ _ M _ _ (hquiet M hg) (hquiet M hg), ?_, ?_, rfl⟩
      · simp [Output.declarations]
      · simp [Output.requests]
  · have hin : h.guard ∈ h.atLibBaseTest env M :=
      mem_atLibBaseTest_of_keepsDefined hkeep h M (by simp [Header.atPragmasTest])
    refine ⟨⟨_, preprocess_fresh env h M hg, hin⟩, fun hg' => absurd hg' hg, ?_⟩
    refine ⟨_, _, preprocess_fresh env h M hg,
      includeSeq_pair env _ _ M _ _ (preprocess_fresh env h M hg) (hquiet _ hin), ?_, ?_, rfl⟩
    · simp [Output.declarations]
    · simp [Output.requests]

/-- C1, at a concrete input: `proto/layers.h` from the empty macro set, with
nested headers that define their own guards. -/
theorem guard_prevents_double_inclusion_witness :
    KeepsDefined guardingHeaders (Header.guard Header.layers) ∧
    ((∃ out, preprocess guardingHeaders (Header.lines Header.layers) ∅ = some out ∧
        Header.guard Header.layers ∈ out.macros) ∧
    (Header.guard Header.layers ∈ (∅ : MacroSet) →
      ∃ out, preprocess guardingHeaders (Header.lines Header.layers) ∅ = some out ∧
        out.declarations = [] ∧ out.requests = [] ∧ out.macros = ∅) ∧
    (∃ once twice, preprocess guardingHeaders (Header.lines Header.layers) ∅ = some once ∧
        includeSeq guardingHeaders [Header.lines Header.layers, Header.lines Header.layers] ∅
          = some twice ∧
        twice.declarations = once.declarations ∧ twice.requests = once.requests ∧
        twice.macros = once.macros)) :=
  ⟨guardingHeaders_keepsDefined _,
   guard_prevents_double_inclusion guardingHeaders Header.layers ∅
     (guardingHeaders_keepsDefined _)⟩

/-- C2, as stated, fails: `proto/layers.h` contains an `#include` line, and
processing it from the empty macro set produces events that are neither a
macro test, a macro definition nor the declaration of the library base
(the two include requests). -/
theorem content_only_guards_and_extern_counterexample :
    (Header.lines Header.layers).all (Header.guardOrExternLine Header.layers) = false ∧
    Line.hashInclude "pragmas/layers_pragmas.h" ∈ Header.lines Header.layers ∧
    (preprocess inertHeaders (Header.lines Header.layers) ∅).map
        (fun out => out.trace.all (Header.guardOrExternEvent Header.layers)) = some false ∧
    (preprocess inertHeaders (Header.lines Header.layers) ∅).map Output.requests
        = some ["pragmas/layers_pragmas.h", "exec/libraries.h"] := by
  decide

/-- C2, amended: the content of either header consists only of its guards, two
guarded `#include` lines (the pragma header and `exec/libraries.h`), comments
and blank lines, and one extern declaration; for every macro set in which no
identifier of the declaration line is a macro name, and nested headers that
introduce none of them, processing the header succeeds and produces nothing but
tests of its four macros, the definition of its guard, requests for those two
includes, and the extern declaration of its library base as written. -/
theorem content_guards_includes_and_extern (env : IncludeEffect) (h : Header) (M : MacroSet)
    (hM : h.LineUntouched M) (henv : LeavesLine env h) :
    (∀ l ∈ h.lines, l ∈ h.allowedLines) ∧
    ∃ out, preprocess env h.lines M = some out ∧ ∀ e ∈ out.trace, e ∈ h.allowedEvents := by
  constructor
  · cases h <;>
      simp [Header.lines, proto_layers_h, proto_nonvolatile_h, Header.allowedLines,
        Header.guard, Header.pragmasGuard, Header.pragmasPath, Header.libBaseDecl]
  · by_cases hg : h.guard ∈ M
    · refine ⟨_, preprocess_defined env h M hg, ?_⟩
      simp [Header.allowedEvents]
    · exact ⟨_, preprocess_fresh env h M hg, freshTrace_verbatim env h M hM henv⟩

/-- C2 amended, at a concrete input: `proto/layers.h` from the empty macro
set, with nested headers that each introduce their own guard. -/
theorem content_guards_includes_and_extern_witness :
    Header.LineUntouched Header.layers ∅ ∧ LeavesLine guardingHeaders Header.layers ∧
    ((∀ l ∈ Header.lines Header.layers, l ∈ Header.allowedLines Header.layers) ∧
    ∃ out, preprocess guardingHeaders (Header.lines Header.layers) ∅ = some out ∧
      ∀ e ∈ out.trace, e ∈ Header.allowedEvents Header.layers) :=
  ⟨lineUntouched_empty _, guardingHeaders_leavesLine _,
   content_guards_includes_and_extern guardingHeaders Header.layers ∅
     (lineUntouched_empty _) (guardingHeaders_leavesLine _)⟩

/-- C3: each header only declares that its library base exists elsewhere.
The one declaration in the text of `proto/layers.h` is
`extern struct Library * LayersBase;` and the one in `proto/nonvolatile.h` is
`extern struct Library * NVBase;`, without initializer; for every macro set in
which no identifier of these lines is a macro name, and nested headers that
introduce none of them, every declaration that processing emits is that one,
as written, and it does not reserve storage.  From the empty macro set, with
nested headers that introduce no macro, the declaration is emitted. -/
theorem libbase_is_extern_declaration (env : IncludeEffect) (M : MacroSet)
    (hM : ∀ h : Header, h.LineUntouched M) (henv : ∀ h : Header, LeavesLine env h) :
    (proto_layers_h.filterMap (fun l =>
        match l with
        | Line.declaration d => some d
        | _ => none)
      = [{ storage := some StorageClass.externSpec,
           type := CType.pointer (CType.structT "Library"),
           name := "LayersBase", initializer := none }]) ∧
    (proto_nonvolatile_h.filterMap (fun l =>
        match l with
        | Line.declaration d => some d
        | _ => none)
      = [{ storage := some StorageClass.externSpec,
           type := CType.pointer (CType.structT "Library"),
           name := "NVBase", initializer := none }]) ∧
    (∃ out, preprocess env proto_layers_h M = some out ∧
      ∀ e ∈ out.declarations, e.replaced = [] ∧ e.written.name = "LayersBase" ∧
        e.written.storage = some StorageClass.externSpec ∧
        e.written.type = CType.pointer (CType.structT "Library") ∧
        e.written.initializer = none ∧ definesStorage e.written = false) ∧
    (∃ out, preprocess env proto_nonvolatile_h M = some out ∧
      ∀ e ∈ out.declarations, e.replaced = [] ∧ e.written.name = "NVBase" ∧
        e.written.storage = some StorageClass.externSpec ∧
        e.written.type = CType.pointer (CType.structT "Library") ∧
        e.written.initializer = none ∧ definesStorage e.written = false) ∧
    (preprocess inertHeaders proto_layers_h ∅).map
        (fun out => out.declarations.map (fun e => (e.written.name, e.replaced)))
      = some [("LayersBase", [])] ∧
    (preprocess inertHeaders proto_nonvolatile_h ∅).map
        (fun out => out.declarations.map (fun e => (e.written.name, e.replaced)))
      = some [("NVBase", [])] := by
  have key : ∀ h : Header, ∃ out, preprocess env h.lines M = some out ∧
      ∀ e ∈ out.declarations, e = Emitted.verbatim h.libBaseDecl := by
    intro h
    by_cases hg : h.guard ∈ M
    · exact ⟨_, preprocess_defined env h M hg, by simp [Output.declarations]⟩
    · refine ⟨_, preprocess_fresh env h M hg, ?_⟩
      rw [declarations_fresh_verbatim env h M _ (hM h) (henv h)]
      split_ifs <;> simp
  refine ⟨by decide, by decide, ?_, ?_, by decide, by decide⟩
  · obtain ⟨out, ho, hd⟩ := key Header.layers
    refine ⟨out, ho, fun e hmem => ?_⟩
    rw [hd e hmem]
    simp [Emitted.verbatim, Header.libBaseDecl, definesStorage]
  · obtain ⟨out, ho, hd⟩ := key Header.nonvolatile
    refine ⟨out, ho, fun e hmem => ?_⟩
    rw [hd e hmem]
    simp [Emitted.verbatim, Header.libBaseDecl, definesStorage]

/-- C3, at a concrete input: the empty macro set, with nested headers that
each introduce their own guard. -/
theorem libbase_is_extern_declaration_witness :
    (∀ h : Header, h.LineUntouched ∅) ∧ (∀ h : Header, LeavesLine guardingHeaders h) ∧
    (∃ out, preprocess guardingHeaders proto_layers_h ∅ = some out ∧
      ∀ e ∈ out.declarations, e.replaced = [] ∧ e.written.name = "LayersBase" ∧
        e.written.storage = some StorageClass.externSpec ∧
        e.written.type = CType.pointer (CType.structT "Library") ∧
        e.written.initializer = none ∧ definesStorage e.written = false) ∧
    (∃ out, preprocess guardingHeaders proto_nonvolatile_h ∅ = some out ∧
      ∀ e ∈ out.declarations, e.replaced = [] ∧ e.written.name = "NVBase" ∧
        e.written.storage = some StorageClass.externSpec ∧
        e.written.type = CType.pointer (CType.structT "Library") ∧
        e.written.initializer = none ∧ definesStorage e.written = false) :=
  ⟨lineUntouched_empty, guardingHeaders_leavesLine,
   (libbase_is_extern_declaration guardingHeaders ∅ lineUntouched_empty
      guardingHeaders_leavesLine).2.2.1,
   (libbase_is_extern_declaration guardingHeaders ∅ lineUntouched_empty
      guardingHeaders_leavesLine).2.2.2.1⟩

/-- C6: for either header processed with its guard not yet defined, whatever
the nested headers do: the pragma header is requested if and only if its
guard is not defined, `exec/libraries.h` is requested if and only if
`EXEC_LIBRARIES_H` is not defined when line 18 is reached, the requests come
in that order, and every request precedes every declaration. -/
theorem nested_includes_guarded_in_order (env : IncludeEffect) (h : Header) (M : MacroSet)
    (hg : h.guard ∉ M) :
    ∃ out atExec, preprocess env h.lines M = some out ∧
      macrosAtLine env h.lines 18 M = some atExec ∧
      (h.pragmasPath ∈ out.requests ↔ h.pragmasGuard ∉ M) ∧
      ("exec/libraries.h" ∈ out.requests ↔ "EXEC_LIBRARIES_H" ∉ atExec) ∧
      out.requests.Sublist [h.pragmasPath, "exec/libraries.h"] ∧
      out.trace.filter Event.isOutput
        = out.requests.map Event.requested ++ out.declarations.map Event.declared := by
  have hne := pragmasPath_ne_exec h
  have hp := pragmasGuard_mem_atPragmasTest h M
  refine ⟨_, _, preprocess_fresh env h M hg, macrosAtLine_exec env h M hg, ?_, ?_, ?_, ?_⟩
  · rw [requests_fresh]
    split_ifs <;> simp_all
  · rw [requests_fresh]
    split_ifs <;> simp_all [hne.symm]
  · rw [requests_fresh]
    split_ifs <;> simp
  · rw [requests_fresh, declarations_fresh]
    simp only [Header.freshTrace]
    split_ifs <;> simp_all [Event.isOutput]

/-- C6, at a concrete input: `proto/layers.h` from the empty macro set, with
nested headers that define their own guards. -/
theorem nested_includes_guarded_in_order_witness :
    Header.guard Header.layers ∉ (∅ : MacroSet) ∧
    ∃ out atExec, preprocess guardingHeaders (Header.lines Header.layers) ∅ = some out ∧
      macrosAtLine guardingHeaders (Header.lines Header.layers) 18 ∅ = some atExec ∧
      (Header.pragmasPath Header.layers ∈ out.requests ↔
        Header.pragmasGuard Header.layers ∉ (∅ : MacroSet)) ∧
      ("exec/libraries.h" ∈ out.requests ↔ "EXEC_LIBRARIES_H" ∉ atExec) ∧
      out.requests.Sublist [Header.pragmasPath Header.layers, "exec/libraries.h"] ∧
      out.trace.filter Event.isOutput
        = out.requests.map Event.requested ++ out.declarations.map Event.declared :=
  ⟨by decide, nested_includes_guarded_in_order guardingHeaders Header.layers ∅ (by decide)⟩

end AmigaNDK
